import Mathlib

/-!
Verification of a distributed task and actor scheduling core
(the runtime exercised by the Ray tutorial notebooks of this repository).

The runtime itself ships no implementation in this repository — the
notebooks only call it — so the object store, wait coordinator, scheduler
and actor-slot machinery below are modelled from the specification; the
`Counter` actor body is embedded from the notebook source.
-/

namespace DistRay

/-- Modelled from the spec: the error taxonomy of §7 (the runtime's own
source is not in the repository). -/
inductive RayError where
  | invalidArgument
  | duplicateWrite
  | infeasibleResourceRequest
  | actorInitFailed
  | actorTerminated
deriving DecidableEq

/-- Modelled from the spec: the state of one `ObjectEntry` — `Empty` when
the id is minted, `Ready` once the producing task completed, or `failed`
recording the error a task body raised (a failed state of the future). -/
inductive ObjState (α : Type) where
  | empty
  | ready (v : α)
  | failed (e : Nat)
deriving DecidableEq

/-- Modelled from the spec: the Object Store of §4.1 (its implementation
is not in the repository).  Entries are indexed by `ObjectId = Nat` in
allocation order; `log` records ids in the order their entries left the
`empty` state (completion order). -/
structure Store (α : Type) where
  entries : List (ObjState α)
  log : List Nat
deriving DecidableEq

namespace Store

/-- Modelled from the spec: `allocate() -> ObjectId` reserves a new,
Empty id (minted at task-submission time). -/
def allocate (s : Store α) : Nat × Store α :=
  (s.entries.length, ⟨s.entries ++ [.empty], s.log⟩)

/-- State of the entry an id names (`empty` for an unminted id). -/
def lookup (s : Store α) (i : Nat) : ObjState α :=
  (s.entries[i]?).getD .empty

/-- Modelled from the spec: `put(id, value)` transitions Empty→Ready
exactly once; fails with `DuplicateWrite` if already written. -/
def put (s : Store α) (i : Nat) (v : α) : Except RayError (Store α) :=
  if i < s.entries.length then
    match s.lookup i with
    | .empty => .ok ⟨s.entries.set i (.ready v), s.log ++ [i]⟩
    | _ => .error .duplicateWrite
  else .error .invalidArgument

/-- Modelled from the spec: a task-body failure is propagated to the
task's future as a failed state (same single-write discipline as `put`). -/
def putFailed (s : Store α) (i : Nat) (e : Nat) : Except RayError (Store α) :=
  if i < s.entries.length then
    match s.lookup i with
    | .empty => .ok ⟨s.entries.set i (.failed e), s.log ++ [i]⟩
    | _ => .error .duplicateWrite
  else .error .duplicateWrite

/-- Modelled from the spec: `get(id)` blocks the caller until the entry
leaves `empty` (`none` models the caller still being blocked), then
returns the value — or re-raises the recorded task failure — together
with the store it leaves behind, which is untouched (`get` never destroys
the entry). -/
def get (s : Store α) (i : Nat) : Option (Except Nat α × Store α) :=
  match s.lookup i with
  | .ready v => some (.ok v, s)
  | .failed e => some (.error e, s)
  | .empty => none

/-- Modelled from the spec: non-blocking readiness check; a failed entry
counts as done (wait treats it as Ready). -/
def is_done (s : Store α) (i : Nat) : Bool :=
  match s.lookup i with
  | .empty => false
  | _ => true

end Store

/-- Modelled from the spec: one atomic evolution of the Object Store —
an allocation, a successful publish, or a successful failure record.
Used to state that a Ready entry is immutable thereafter. -/
inductive StoreStep {α : Type} : Store α → Store α → Prop where
  | alloc (s : Store α) : StoreStep s (s.allocate).2
  | publishOk {s s' : Store α} (i : Nat) (v : α) :
      s.put i v = .ok s' → StoreStep s s'
  | publishFail {s s' : Store α} (i : Nat) (e : Nat) :
      s.putFailed i e = .ok s' → StoreStep s s'

section StoreLemmas

variable {α : Type}

theorem lookup_set_self {s : Store α} {i : Nat} (h : i < s.entries.length)
    (x : ObjState α) (log : List Nat) :
    Store.lookup ⟨s.entries.set i x, log⟩ i = x := by
  simp only [Store.lookup, List.getElem?_set_self h, Option.getD_some]

theorem lookup_set_ne {s : Store α} {i j : Nat} (h : i ≠ j)
    (x : ObjState α) (log : List Nat) :
    Store.lookup ⟨s.entries.set i x, log⟩ j = s.lookup j := by
  simp only [Store.lookup, List.getElem?_set_ne h]

theorem put_ok_iff {s s' : Store α} {i : Nat} {v : α} :
    s.put i v = .ok s' ↔
      i < s.entries.length ∧ s.lookup i = .empty ∧
        s' = ⟨s.entries.set i (.ready v), s.log ++ [i]⟩ := by
  constructor
  · intro h
    unfold Store.put at h
    split at h
    · split at h
      · exact ⟨by assumption, by assumption, by injection h with h; exact h.symm⟩
      · exact absurd h (by simp)
    · exact absurd h (by simp)
  · rintro ⟨h1, h2, rfl⟩
    unfold Store.put
    rw [if_pos h1, h2]

theorem putFailed_ok_iff {s s' : Store α} {i : Nat} {e : Nat} :
    s.putFailed i e = .ok s' ↔
      i < s.entries.length ∧ s.lookup i = .empty ∧
        s' = ⟨s.entries.set i (.failed e), s.log ++ [i]⟩ := by
  constructor
  · intro h
    unfold Store.putFailed at h
    split at h
    · split at h
      · exact ⟨by assumption, by assumption, by injection h with h; exact h.symm⟩
      · exact absurd h (by simp)
    · exact absurd h (by simp)
  · rintro ⟨h1, h2, rfl⟩
    unfold Store.putFailed
    rw [if_pos h1, h2]

/-- A Ready entry survives any further store step with the same value. -/
theorem lookup_ready_of_step {s s' : Store α} {i : Nat} {v : α}
    (hstep : StoreStep s s') (hv : s.lookup i = .ready v) :
    s'.lookup i = .ready v := by
  cases hstep with
  | alloc =>
      have hi : i < s.entries.length := by
        by_contra hlt
        simp [Store.lookup, List.getElem?_eq_none (Nat.le_of_not_lt hlt)] at hv
      simp only [Store.allocate, Store.lookup, List.getElem?_append_left hi]
      exact hv
  | publishOk j w hput =>
      obtain ⟨hj, hemp, rfl⟩ := put_ok_iff.mp hput
      have hne : j ≠ i := by
        intro h; subst h; rw [hemp] at hv; exact ObjState.noConfusion hv
      rw [lookup_set_ne hne, hv]
  | publishFail j e hput =>
      obtain ⟨hj, hemp, rfl⟩ := putFailed_ok_iff.mp hput
      have hne : j ≠ i := by
        intro h; subst h; rw [hemp] at hv; exact ObjState.noConfusion hv
      rw [lookup_set_ne hne, hv]

end StoreLemmas

/-- Claim C4: once a value is published with `put`, every `get` on that id
returns it; moreover any successful `get` hands back the store unchanged,
so repeating `get` any number of times yields the same value with no side
effect on the entry. -/
theorem get_after_put_idempotent (s : Store Nat) (i v : Nat) (s' : Store Nat)
    (hput : s.put i v = .ok s') :
    s'.get i = some (.ok v, s') ∧
      ∀ (t u : Store Nat) (j : Nat) (r : Except Nat Nat),
        t.get j = some (r, u) → u = t ∧ u.get j = some (r, u) := by
  constructor
  · obtain ⟨hi, hemp, rfl⟩ := put_ok_iff.mp hput
    simp [Store.get, lookup_set_self hi]
  · intro t u j r hget
    unfold Store.get at hget ⊢
    cases hl : t.lookup j with
    | ready w =>
        rw [hl] at hget
        simp only [Option.some.injEq, Prod.mk.injEq] at hget
        obtain ⟨rfl, rfl⟩ := hget
        rw [hl]
        exact ⟨rfl, rfl⟩
    | failed e =>
        rw [hl] at hget
        simp only [Option.some.injEq, Prod.mk.injEq] at hget
        obtain ⟨rfl, rfl⟩ := hget
        rw [hl]
        exact ⟨rfl, rfl⟩
    | empty =>
        rw [hl] at hget
        exact Option.noConfusion hget

/-- Witness for C4 at a concrete store. -/
theorem get_after_put_idempotent_witness :
    (Store.mk [ObjState.empty] [] : Store Nat).put 0 7 =
        .ok (⟨[.ready 7], [0]⟩ : Store Nat) ∧
      (Store.mk [ObjState.ready 7] [0] : Store Nat).get 0 =
        some (.ok 7, (⟨[.ready 7], [0]⟩ : Store Nat)) := by
  refine ⟨rfl, ?_⟩
  exact (get_after_put_idempotent ⟨[.empty], []⟩ 0 7 ⟨[.ready 7], [0]⟩ rfl).1

/-- Claim C5: on a minted, still-Empty id, `put` transitions the entry to
Ready exactly once; any second `put` (or failure record) on that id fails
with `DuplicateWrite`, and no further store step — allocation or
publication — ever changes the value again. -/
theorem put_once_immutable (s : Store Nat) (i v : Nat)
    (hlt : i < s.entries.length) (hemp : s.lookup i = .empty) :
    ∃ s' : Store Nat, s.put i v = .ok s' ∧
      s'.lookup i = .ready v ∧
      (∀ w : Nat, s'.put i w = .error .duplicateWrite) ∧
      (∀ e : Nat, s'.putFailed i e = .error .duplicateWrite) ∧
      (∀ s'' : Store Nat, StoreStep s' s'' → s''.lookup i = .ready v) := by
  refine ⟨⟨s.entries.set i (.ready v), s.log ++ [i]⟩,
    put_ok_iff.mpr ⟨hlt, hemp, rfl⟩, lookup_set_self hlt _ _, ?_, ?_, ?_⟩
  · intro w
    unfold Store.put
    rw [lookup_set_self hlt _ _]
    split
    · rfl
    · simp only [List.length_set] at *
      omega
  · intro e
    unfold Store.putFailed
    rw [lookup_set_self hlt _ _]
    split
    · rfl
    · rfl
  · intro s'' hstep
    exact lookup_ready_of_step hstep (lookup_set_self hlt _ _)

/-- Witness for C5 at a concrete one-entry store. -/
theorem put_once_immutable_witness :
    ∃ s' : Store Nat, (Store.mk [ObjState.empty] [] : Store Nat).put 0 5 = .ok s' ∧
      s'.lookup 0 = .ready 5 ∧
      (∀ w : Nat, s'.put 0 w = .error .duplicateWrite) ∧
      (∀ e : Nat, s'.putFailed 0 e = .error .duplicateWrite) ∧
      (∀ s'' : Store Nat, StoreStep s' s'' → s''.lookup 0 = .ready 5) :=
  put_once_immutable ⟨[.empty], []⟩ 0 5 (by decide) (by decide)

/-- Modelled from the spec: the Wait Coordinator of §4.4 (its
implementation is not in the repository).  `wait targets k` requires
`k ≤ |targets|` (else `InvalidArgument`); it blocks — modelled by
`some`/`none` on the result — until `k` of the targets have completed,
then returns the first `k` completed targets in completion order as
`ready` and the rest of `targets` as `remaining`. -/
def Store.wait (s : Store α) (targets : List Nat) (k : Nat) :
    Except RayError (Option (List Nat × List Nat)) :=
  if k ≤ targets.length then
    if k ≤ (s.log.filter (fun i => targets.contains i)).length then
      .ok (some ((s.log.filter (fun i => targets.contains i)).take k,
        targets.filter
          (fun i => !((s.log.filter (fun j => targets.contains j)).take k).contains i)))
    else .ok none
  else .error .invalidArgument

theorem wait_ok_iff {s : Store α} {targets : List Nat} {k : Nat}
    {ready remaining : List Nat}
    (h : s.wait targets k = .ok (some (ready, remaining))) :
    k ≤ targets.length ∧
      k ≤ (s.log.filter (fun i => targets.contains i)).length ∧
      ready = (s.log.filter (fun i => targets.contains i)).take k ∧
      remaining = targets.filter (fun i => !ready.contains i) := by
  unfold Store.wait at h
  split at h
  · split at h
    · simp only [Except.ok.injEq, Option.some.injEq, Prod.mk.injEq] at h
      exact ⟨by assumption, by assumption, h.1.symm, by rw [← h.1]; exact h.2.symm⟩
    · exact absurd h (by simp)
  · exact absurd h (by simp)

/-- Claim C2: whenever `wait targets k` returns without blocking (no
timeout fires in the model), the result satisfies
`|ready| = min k |targets|`, `ready` and `remaining` together cover
exactly the targets, and they are disjoint. -/
theorem wait_partition (s : Store Nat) (targets : List Nat) (k : Nat)
    (ready remaining : List Nat)
    (h : s.wait targets k = .ok (some (ready, remaining))) :
    ready.length = min k targets.length ∧
      (∀ x : Nat, x ∈ targets ↔ (x ∈ ready ∨ x ∈ remaining)) ∧
      (∀ x : Nat, x ∈ ready → x ∉ remaining) := by
  obtain ⟨hk, hlen, hr, hrem⟩ := wait_ok_iff h
  subst hr; subst hrem
  refine ⟨?_, ?_, ?_⟩
  · rw [List.length_take]
    omega
  · intro x
    constructor
    · intro hx
      by_cases hmem :
        x ∈ (s.log.filter (fun i => targets.contains i)).take k
      · exact Or.inl hmem
      · refine Or.inr (List.mem_filter.mpr ⟨hx, ?_⟩)
        simpa using hmem
    · rintro (hx | hx)
      · have h1 := List.mem_of_mem_take hx
        have h2 := List.mem_filter.mp h1
        simpa using h2.2
      · exact (List.mem_filter.mp hx).1
  · intro x hx hmem
    have h2 := (List.mem_filter.mp hmem).2
    have h3 : (List.take k (List.filter (fun i => targets.contains i) s.log)).contains x
        = true := List.elem_eq_true_of_mem hx
    rw [h3] at h2
    simp at h2

/-- Witness for C2: two completed ids, wait for one of two targets. -/
theorem wait_partition_witness :
    ([1] : List Nat).length = min 1 ([0, 1] : List Nat).length ∧
      (∀ x : Nat, x ∈ ([0, 1] : List Nat) ↔ (x ∈ ([1] : List Nat) ∨ x ∈ ([0] : List Nat))) ∧
      (∀ x : Nat, x ∈ ([1] : List Nat) → x ∉ ([0] : List Nat)) :=
  wait_partition ⟨[.ready 10, .ready 20], [1, 0]⟩ [0, 1] 1 [1] [0] rfl

/-- Claim C3: the `ready` list a returning `wait` hands back is exactly
the first `k` completed targets taken from the store's completion log, so
its order is completion order — in particular it is an in-order sublist
of the completion log, not of the submission (allocation) order. -/
theorem wait_ready_completion_order (s : Store Nat) (targets : List Nat)
    (k : Nat) (ready remaining : List Nat)
    (h : s.wait targets k = .ok (some (ready, remaining))) :
    ready = (s.log.filter (fun i => targets.contains i)).take k ∧
      ready.Sublist s.log := by
  obtain ⟨hk, hlen, hr, hrem⟩ := wait_ok_iff h
  refine ⟨hr, ?_⟩
  subst hr
  exact List.Sublist.trans (List.take_sublist _ _) (List.filter_sublist _)

/-- Witness for C3: id 1 completed before id 0, so `ready` is `[1, 0]`,
the completion order, although id 0 was minted (submitted) first. -/
theorem wait_ready_completion_order_witness :
    ([1, 0] : List Nat) =
        (([1, 0] : List Nat).filter (fun i => ([0, 1] : List Nat).contains i)).take 2 ∧
      ([1, 0] : List Nat).Sublist ([1, 0] : List Nat) :=
  wait_ready_completion_order ⟨[.ready 10, .ready 20], [1, 0]⟩ [0, 1] 2 [1, 0] [] rfl

/-- Embedded from the notebook source (`Actors.ipynb`, class `Counter`):
`increment` performs `self.value += 1; return self.value`, mapping the
current state to the new state together with the returned value. -/
def Counter.increment (value : Nat) : Nat × Nat :=
  (value + 1, value + 1)

/-- Interpretation of method references for the Counter scenario: every
method reference denotes `Counter.increment` acting on the counter state. -/
def counterRun : Nat → Nat → Nat × Nat :=
  fun _ value => Counter.increment value

/-- Modelled from the spec: one actor slot of §4.3 (the runtime is not in
the repository) — a pending queue in arrival order, at most one method in
flight, and the opaque actor state; `submitted`, `executed` and `results`
record the submission order, the execution order and the values returned
in completion order. -/
structure ActorSys where
  submitted : List Nat
  queue : List Nat
  running : Option Nat
  astate : Nat
  executed : List Nat
  results : List Nat
deriving DecidableEq

/-- The freshly created actor slot: empty queue, idle, constructor-built
state (0 for `Counter`). -/
def ActorSys.idle : ActorSys := ⟨[], [], none, 0, [], []⟩

/-- Modelled from the spec: the events an actor slot reacts to — a driver
submission, the slot dispatching its queue head when idle, and the bound
worker completing the in-flight method.  The interleaving of the events
is arbitrary. -/
inductive AAct where
  | submitA (m : Nat)
  | dispatchA
  | completeA
deriving DecidableEq

/-- Modelled from the spec: the slot's transition on one event; an event
whose guard fails (dispatch while busy or with an empty queue, completion
while idle) leaves the slot unchanged. -/
def astep (run : Nat → Nat → Nat × Nat) (s : ActorSys) : AAct → ActorSys
  | .submitA m =>
      { s with submitted := s.submitted ++ [m], queue := s.queue ++ [m] }
  | .dispatchA =>
      match s.running, s.queue with
      | none, m :: q => { s with running := some m, queue := q }
      | _, _ => s
  | .completeA =>
      match s.running with
      | some m =>
          { s with running := none, astate := (run m s.astate).1,
                   results := s.results ++ [(run m s.astate).2],
                   executed := s.executed ++ [m] }
      | none => s

/-- The slot after an arbitrary interleaving of events, starting idle. -/
def runActor (run : Nat → Nat → Nat × Nat) (acts : List AAct) : ActorSys :=
  acts.foldl (astep run) ActorSys.idle

/-- Serial-order invariant: the submission log splits into executed
methods, the method in flight, and the still-queued methods, in order;
results track executed methods one-to-one. -/
def AInv (s : ActorSys) : Prop :=
  s.submitted = s.executed ++ s.running.toList ++ s.queue ∧
    s.results.length = s.executed.length

/-- Counter invariant: the state counts completed increments and the
results so far are `[1, 2, …, n]`. -/
def CInv (s : ActorSys) : Prop :=
  s.astate = s.results.length ∧
    s.results = (List.range s.results.length).map (· + 1)

theorem astep_AInv (run : Nat → Nat → Nat × Nat) (s : ActorSys) (a : AAct)
    (h : AInv s) : AInv (astep run s a) := by
  obtain ⟨h1, h2⟩ := h
  cases a with
  | submitA m =>
      unfold AInv astep
      simp only [h1, List.append_assoc]
      exact ⟨trivial, h2⟩
  | dispatchA =>
      unfold AInv astep
      cases hr : s.running with
      | some m => simp only [hr]; exact ⟨by rw [h1, hr], h2⟩
      | none =>
          cases hq : s.queue with
          | nil => simp only [hr, hq]; exact ⟨by rw [h1, hr, hq], h2⟩
          | cons m q =>
              simp only [hr, hq]
              refine ⟨?_, h2⟩
              rw [h1, hr, hq]
              simp
  | completeA =>
      unfold AInv astep
      cases hr : s.running with
      | none => simp only [hr]; exact ⟨by rw [h1, hr], h2⟩
      | some m =>
          simp only [hr]
          refine ⟨?_, ?_⟩
          · rw [h1, hr]
            simp
          · simp [h2]

theorem astep_CInv (s : ActorSys) (a : AAct) (h : CInv s) :
    CInv (astep counterRun s a) := by
  obtain ⟨h1, h2⟩ := h
  cases a with
  | submitA m => exact ⟨h1, h2⟩
  | dispatchA =>
      unfold CInv astep
      cases hr : s.running with
      | some m => simp only [hr]; exact ⟨h1, h2⟩
      | none =>
          cases hq : s.queue with
          | nil => simp only [hr, hq]; exact ⟨h1, h2⟩
          | cons m q => simp only [hr, hq]; exact ⟨h1, h2⟩
  | completeA =>
      unfold CInv astep
      cases hr : s.running with
      | none => simp only [hr]; exact ⟨h1, h2⟩
      | some m =>
          simp only [hr, counterRun, Counter.increment, List.length_append,
            List.length_cons, List.length_nil]
          constructor
          · rw [h1]
          · rw [h2, h1]
            rw [show s.results.length + 1 = s.results.length + 1 from rfl,
              List.range_succ]
            simp [h1]

theorem foldl_AInv (run : Nat → Nat → Nat × Nat) (acts : List AAct) :
    ∀ s : ActorSys, AInv s → AInv (acts.foldl (astep run) s) := by
  induction acts with
  | nil => intro s h; exact h
  | cons a rest ih => intro s h; exact ih _ (astep_AInv run s a h)

theorem foldl_CInv (acts : List AAct) :
    ∀ s : ActorSys, CInv s → CInv (acts.foldl (astep counterRun) s) := by
  induction acts with
  | nil => intro s h; exact h
  | cons a rest ih => intro s h; exact ih _ (astep_CInv s a h)

/-- Claim C1: for every sequence of submissions on one actor and every
interleaving of submissions, dispatches and completions, the execution
order equals the submission order (the submission log is the executed
methods followed by the in-flight and queued ones, and at most one method
is ever in flight); for the `Counter` actor, the results are always
`[1, 2, …, n]`, so five `increment` submissions, once drained, yield
exactly `[1, 2, 3, 4, 5]`. -/
theorem actor_methods_serial (run : Nat → Nat → Nat × Nat) (acts : List AAct) :
    (runActor run acts).submitted =
        (runActor run acts).executed ++ (runActor run acts).running.toList ++
          (runActor run acts).queue ∧
      (run = counterRun →
        (runActor run acts).results =
            (List.range (runActor run acts).results.length).map (· + 1) ∧
          ((runActor run acts).queue = [] → (runActor run acts).running = none →
            (runActor run acts).submitted.length = 5 →
            (runActor run acts).results = [1, 2, 3, 4, 5])) := by
  have hA : AInv (runActor run acts) :=
    foldl_AInv run acts ActorSys.idle ⟨rfl, rfl⟩
  refine ⟨hA.1, ?_⟩
  rintro rfl
  have hC : CInv (runActor counterRun acts) :=
    foldl_CInv acts ActorSys.idle ⟨rfl, rfl⟩
  refine ⟨hC.2, ?_⟩
  intro hq hr h5
  have hlen : (runActor counterRun acts).results.length = 5 := by
    have := hA.1
    rw [hq, hr] at this
    simp only [Option.toList, List.append_nil] at this
    rw [this] at h5
    rw [hA.2, h5]
  rw [hC.2, hlen]
  decide

/-- Witness for C1: five `increment` submissions interleaved with
dispatches and completions, fully drained, yield `[1, 2, 3, 4, 5]`. -/
theorem actor_methods_serial_witness :
    (runActor counterRun
        [.submitA 0, .submitA 0, .dispatchA, .completeA, .submitA 0,
         .dispatchA, .completeA, .dispatchA, .completeA, .submitA 0,
         .dispatchA, .completeA, .submitA 0, .dispatchA, .completeA]).results
      = [1, 2, 3, 4, 5] :=
  ((actor_methods_serial counterRun
        [.submitA 0, .submitA 0, .dispatchA, .completeA, .submitA 0,
         .dispatchA, .completeA, .dispatchA, .completeA, .submitA 0,
         .dispatchA, .completeA, .submitA 0, .dispatchA, .completeA]).2
      rfl).2 (by decide) (by decide) (by decide)

/-- Modelled from the spec: an immutable Task description (§3) — result
id, opaque callable reference, literal arguments, resource request, and
the actor slot it is pinned to, if any. -/
structure Task where
  tid : Nat
  fn : Nat
  args : List Nat
  cpu : Nat
  gpu : Nat
  slot : Option Nat
deriving DecidableEq

/-- Modelled from the spec: a worker (§3) with its capacity, whether it
is reserved for an actor slot, and the at-most-one task it is executing. -/
structure Worker where
  wcpu : Nat
  wgpu : Nat
  bound : Bool
  cur : Option Task
deriving DecidableEq

/-- Modelled from the spec: an actor slot (§3) — the worker it is bound
to once one is selected, its strictly-ordered pending queue, and its
exclusively-owned opaque state. -/
structure Slot where
  worker : Option Nat
  queue : List Task
  astate : Nat
deriving DecidableEq

/-- Modelled from the spec: the whole runtime state — object store,
worker pool, ready set of free tasks, and actor slots. -/
structure Sys where
  store : Store Nat
  workers : List Worker
  pending : List Task
  slots : List Slot
deriving DecidableEq

/-- Modelled from the spec: the opaque task bodies at the external
interface boundary (§6): a free-task body maps arguments to a result or
an error; an actor-method body additionally reads and produces the actor
state. -/
structure Model where
  runFree : Nat → List Nat → Except Nat Nat
  runMethod : Nat → Nat → List Nat → Except Nat (Nat × Nat)

/-- Total CPU capacity of the cluster. -/
def Sys.totalCpu (sys : Sys) : Nat := (sys.workers.map Worker.wcpu).sum

/-- Total GPU capacity of the cluster. -/
def Sys.totalGpu (sys : Sys) : Nat := (sys.workers.map Worker.wgpu).sum

/-- Modelled from the spec: `submit(function_ref, args) -> ObjectId`
mints a fresh id and appends the task to the ready set; a request
exceeding the cluster's total capacity fails fast with
`InfeasibleResourceRequest` and enqueues nothing. -/
def Sys.submit (sys : Sys) (fn : Nat) (args : List Nat) (cpu gpu : Nat) :
    Except RayError (Nat × Sys) :=
  if cpu ≤ sys.totalCpu ∧ gpu ≤ sys.totalGpu then
    .ok ((sys.store.allocate).1,
      { sys with store := (sys.store.allocate).2,
                 pending := sys.pending ++
                   [⟨(sys.store.allocate).1, fn, args, cpu, gpu, none⟩] })
  else .error .infeasibleResourceRequest

/-- Modelled from the spec: `create_actor(ctor_ref, ctor_args) ->
ActorHandle` creates a slot whose queue holds the constructor task; the
same fail-fast capacity check applies to the constructor's request. -/
def Sys.create_actor (sys : Sys) (fn : Nat) (args : List Nat) (cpu gpu : Nat) :
    Except RayError (Nat × Sys) :=
  if cpu ≤ sys.totalCpu ∧ gpu ≤ sys.totalGpu then
    .ok (sys.slots.length,
      { sys with store := (sys.store.allocate).2,
                 slots := sys.slots ++
                   [⟨none, [⟨(sys.store.allocate).1, fn, args, cpu, gpu,
                      some sys.slots.length⟩], 0⟩] })
  else .error .infeasibleResourceRequest

/-- Modelled from the spec: `call_actor_method(handle, method_ref, args)
-> ObjectId` mints an id and appends the method task to its slot's
queue; an unknown handle fails with `ActorTerminated`. -/
def Sys.call_actor_method (sys : Sys) (sid fn : Nat) (args : List Nat)
    (cpu gpu : Nat) : Except RayError (Nat × Sys) :=
  match sys.slots[sid]? with
  | some sl =>
      if cpu ≤ sys.totalCpu ∧ gpu ≤ sys.totalGpu then
        .ok ((sys.store.allocate).1,
          { sys with store := (sys.store.allocate).2,
                     slots := sys.slots.set sid
                       { sl with queue := sl.queue ++
                           [⟨(sys.store.allocate).1, fn, args, cpu, gpu,
                              some sid⟩] } })
      else .error .infeasibleResourceRequest
  | none => .error .actorTerminated

/-- Modelled from the spec: binding a freshly created slot to an idle,
unreserved worker (worker selection during the `Creating` state). -/
def Sys.doBind (sys : Sys) (sid wIdx : Nat) : Sys :=
  match sys.slots[sid]?, sys.workers[wIdx]? with
  | some sl, some w =>
      if sl.worker = none ∧ w.bound = false ∧ w.cur = none then
        { sys with slots := sys.slots.set sid { sl with worker := some wIdx },
                   workers := sys.workers.set wIdx { w with bound := true } }
      else sys
  | _, _ => sys

/-- Modelled from the spec: the scheduler dispatches a free task to an
idle, unreserved worker with sufficient idle capacity. -/
def Sys.doDispatchFree (sys : Sys) (tIdx wIdx : Nat) : Sys :=
  match sys.pending[tIdx]?, sys.workers[wIdx]? with
  | some t, some w =>
      if w.bound = false ∧ w.cur = none ∧ t.cpu ≤ w.wcpu ∧ t.gpu ≤ w.wgpu then
        { sys with pending := sys.pending.eraseIdx tIdx,
                   workers := sys.workers.set wIdx { w with cur := some t } }
      else sys
  | _, _ => sys

/-- Modelled from the spec: a slot dispatches its queue head to its bound
worker, strictly in arrival order, only when that worker is idle. -/
def Sys.doDispatchActor (sys : Sys) (sid : Nat) : Sys :=
  match sys.slots[sid]? with
  | some sl =>
      match sl.worker, sl.queue with
      | some wIdx, t :: q =>
          match sys.workers[wIdx]? with
          | some w =>
              if w.cur = none ∧ t.cpu ≤ w.wcpu ∧ t.gpu ≤ w.wgpu then
                { sys with slots := sys.slots.set sid { sl with queue := q },
                           workers := sys.workers.set wIdx { w with cur := some t } }
              else sys
          | none => sys
      | _, _ => sys
  | none => sys

/-- Modelled from the spec: writing a task's outcome into the store —
a value via `put`, a body failure via the failed state; a duplicate
write (impossible from reachable states) leaves the store unchanged. -/
def Store.publish (s : Store α) (i : Nat) (r : Except Nat α) : Store α :=
  match r with
  | .ok v => match s.put i v with | .ok s' => s' | .error _ => s
  | .error e => match s.putFailed i e with | .ok s' => s' | .error _ => s

/-- Modelled from the spec: completion of the task running on a worker:
the body runs to completion, its result or failure is published under the
task's own id, the worker is freed, and — for an actor-method task — the
slot's state is updated.  A body failure touches nothing but the failing
future and the freed worker. -/
def Sys.doComplete (m : Model) (sys : Sys) (wIdx : Nat) : Sys :=
  match sys.workers[wIdx]? with
  | some w =>
      match w.cur with
      | some t =>
          match t.slot with
          | none =>
              { sys with
                  workers := sys.workers.set wIdx { w with cur := none },
                  store := sys.store.publish t.tid (m.runFree t.fn t.args) }
          | some sid =>
              match sys.slots[sid]? with
              | some sl =>
                  match m.runMethod t.fn sl.astate t.args with
                  | .ok sv =>
                      { sys with
                          workers := sys.workers.set wIdx { w with cur := none },
                          slots := sys.slots.set sid { sl with astate := sv.1 },
                          store := sys.store.publish t.tid (.ok sv.2) }
                  | .error e =>
                      { sys with
                          workers := sys.workers.set wIdx { w with cur := none },
                          store := sys.store.publish t.tid (.error e) }
              | none =>
                  { sys with
                      workers := sys.workers.set wIdx { w with cur := none } }
      | none => sys
  | none => sys

/-- Modelled from the spec: the events of the runtime — driver calls and
scheduler-chosen dispatch, binding and completion events, interleaved
arbitrarily. -/
inductive SysAct where
  | submitA (fn : Nat) (args : List Nat) (cpu gpu : Nat)
  | createA (fn : Nat) (args : List Nat) (cpu gpu : Nat)
  | callA (sid fn : Nat) (args : List Nat) (cpu gpu : Nat)
  | bindA (sid wIdx : Nat)
  | dispatchFreeA (tIdx wIdx : Nat)
  | dispatchActorA (sid : Nat)
  | completeA (wIdx : Nat)
deriving DecidableEq

/-- One system transition; a rejected driver call or a guard-failing
scheduler event leaves the state unchanged. -/
def sysStep (m : Model) (sys : Sys) : SysAct → Sys
  | .submitA fn args cpu gpu =>
      match sys.submit fn args cpu gpu with
      | .ok p => p.2
      | .error _ => sys
  | .createA fn args cpu gpu =>
      match sys.create_actor fn args cpu gpu with
      | .ok p => p.2
      | .error _ => sys
  | .callA sid fn args cpu gpu =>
      match sys.call_actor_method sid fn args cpu gpu with
      | .ok p => p.2
      | .error _ => sys
  | .bindA sid wIdx => sys.doBind sid wIdx
  | .dispatchFreeA tIdx wIdx => sys.doDispatchFree tIdx wIdx
  | .dispatchActorA sid => sys.doDispatchActor sid
  | .completeA wIdx => Sys.doComplete m sys wIdx

/-- The cluster at start-up: idle workers with the given capacities,
empty store, no tasks, no actors. -/
def initSys (caps : List (Nat × Nat)) : Sys :=
  ⟨⟨[], []⟩, caps.map (fun c => ⟨c.1, c.2, false, none⟩), [], []⟩

/-- The system after an arbitrary finite interleaving of events. -/
def runSys (m : Model) (caps : List (Nat × Nat)) (acts : List SysAct) : Sys :=
  acts.foldl (sysStep m) (initSys caps)

/-- Claim C6: a task or actor-constructor submission whose request
exceeds the cluster's total capacity fails fast with
`InfeasibleResourceRequest` at submission time, and the system state is
entirely unchanged — nothing is enqueued. -/
theorem infeasible_request_fails_fast (m : Model) (sys : Sys) (fn : Nat)
    (args : List Nat) (cpu gpu : Nat)
    (h : sys.totalCpu < cpu ∨ sys.totalGpu < gpu) :
    sys.submit fn args cpu gpu = .error .infeasibleResourceRequest ∧
      sys.create_actor fn args cpu gpu = .error .infeasibleResourceRequest ∧
      sysStep m sys (.submitA fn args cpu gpu) = sys ∧
      sysStep m sys (.createA fn args cpu gpu) = sys := by
  have hc : ¬ (cpu ≤ sys.totalCpu ∧ gpu ≤ sys.totalGpu) := by
    rcases h with h | h
    · intro hx; omega
    · intro hx; omega
  have h1 : sys.submit fn args cpu gpu = .error .infeasibleResourceRequest := by
    unfold Sys.submit; rw [if_neg hc]
  have h2 : sys.create_actor fn args cpu gpu = .error .infeasibleResourceRequest := by
    unfold Sys.create_actor; rw [if_neg hc]
  refine ⟨h1, h2, ?_, ?_⟩
  · show (match sys.submit fn args cpu gpu with
      | .ok p => p.2
      | .error _ => sys) = sys
    rw [h1]
  · show (match sys.create_actor fn args cpu gpu with
      | .ok p => p.2
      | .error _ => sys) = sys
    rw [h2]

/-- Witness for C6: a 1-CPU, 0-GPU cluster rejects a 2-CPU task. -/
theorem infeasible_request_fails_fast_witness :
    (initSys [(1, 0)]).submit 0 [] 2 0 = .error .infeasibleResourceRequest ∧
      (initSys [(1, 0)]).create_actor 0 [] 2 0 = .error .infeasibleResourceRequest ∧
      sysStep ⟨fun _ _ => .ok 0, fun _ st _ => .ok (st, st)⟩ (initSys [(1, 0)])
          (.submitA 0 [] 2 0) = initSys [(1, 0)] ∧
      sysStep ⟨fun _ _ => .ok 0, fun _ st _ => .ok (st, st)⟩ (initSys [(1, 0)])
          (.createA 0 [] 2 0) = initSys [(1, 0)] :=
  infeasible_request_fails_fast ⟨fun _ _ => .ok 0, fun _ st _ => .ok (st, st)⟩
    (initSys [(1, 0)]) 0 [] 2 0 (Or.inl (by decide))

/-- Modelled from the spec: the observable outcome of one driver-facing
call — it either returns a result to the caller at once, or suspends the
caller. -/
inductive ApiOutcome (α : Type) where
  | done (a : α)
  | blocked
deriving DecidableEq

/-- Modelled from the spec: `submit` as seen by the caller — it returns
its result synchronously. -/
def Sys.apiSubmit (sys : Sys) (fn : Nat) (args : List Nat) (cpu gpu : Nat) :
    ApiOutcome (Except RayError (Nat × Sys)) :=
  .done (sys.submit fn args cpu gpu)

/-- Modelled from the spec: `create_actor` as seen by the caller. -/
def Sys.apiCreateActor (sys : Sys) (fn : Nat) (args : List Nat)
    (cpu gpu : Nat) : ApiOutcome (Except RayError (Nat × Sys)) :=
  .done (sys.create_actor fn args cpu gpu)

/-- Modelled from the spec: `call_actor_method` as seen by the caller. -/
def Sys.apiCallActorMethod (sys : Sys) (sid fn : Nat) (args : List Nat)
    (cpu gpu : Nat) : ApiOutcome (Except RayError (Nat × Sys)) :=
  .done (sys.call_actor_method sid fn args cpu gpu)

/-- Modelled from the spec: `get` as seen by the caller — suspends while
the entry is Empty. -/
def Sys.apiGet (sys : Sys) (i : Nat) : ApiOutcome (Except Nat Nat) :=
  match sys.store.get i with
  | some r => .done r.1
  | none => .blocked

/-- Modelled from the spec: `wait` as seen by the caller — suspends while
fewer than `num_returns` targets are done. -/
def Sys.apiWait (sys : Sys) (targets : List Nat) (k : Nat) :
    ApiOutcome (Except RayError (List Nat × List Nat)) :=
  match sys.store.wait targets k with
  | .ok (some r) => .done (.ok r)
  | .ok none => .blocked
  | .error err => .done (.error err)

/-- Claim C8: the driver-facing calls `submit`, `create_actor` and
`call_actor_method` never suspend the caller — on every state and every
argument they return at once — while `get` and `wait` are genuine
suspension points: there are states on which they block. -/
theorem submission_never_suspends :
    (∀ (sys : Sys) (fn : Nat) (args : List Nat) (cpu gpu : Nat),
        ∃ r, sys.apiSubmit fn args cpu gpu = .done r) ∧
      (∀ (sys : Sys) (fn : Nat) (args : List Nat) (cpu gpu : Nat),
        ∃ r, sys.apiCreateActor fn args cpu gpu = .done r) ∧
      (∀ (sys : Sys) (sid fn : Nat) (args : List Nat) (cpu gpu : Nat),
        ∃ r, sys.apiCallActorMethod sid fn args cpu gpu = .done r) ∧
      (∃ (sys : Sys) (i : Nat), sys.apiGet i = .blocked) ∧
      (∃ (sys : Sys) (targets : List Nat) (k : Nat),
        sys.apiWait targets k = .blocked) := by
  refine ⟨fun sys fn args cpu gpu => ⟨_, rfl⟩,
    fun sys fn args cpu gpu => ⟨_, rfl⟩,
    fun sys sid fn args cpu gpu => ⟨_, rfl⟩,
    ⟨⟨⟨[.empty], []⟩, [], [], []⟩, 0, rfl⟩,
    ⟨⟨⟨[.empty], []⟩, [], [], []⟩, [0], 1, rfl⟩⟩

/-- The tasks a worker is currently executing (at most one by
construction of `Worker`). -/
def Worker.runningTasks (w : Worker) : List Task :=
  match w.cur with
  | some t => [t]
  | none => []

/-- Capacity discipline for one worker: the summed resource reservations
of its running tasks fit its capacity, and at most one task runs. -/
def WOk (w : Worker) : Prop :=
  ((w.runningTasks.map Task.cpu).sum ≤ w.wcpu ∧
      (w.runningTasks.map Task.gpu).sum ≤ w.wgpu) ∧
    w.runningTasks.length ≤ 1

instance (w : Worker) : Decidable (WOk w) := by
  unfold WOk; infer_instance

/-- Every worker of a state obeys the capacity discipline. -/
def WInv (sys : Sys) : Prop := ∀ w ∈ sys.workers, WOk w

theorem wok_of_forall_set {l : List Worker} {i : Nat} {nw : Worker}
    (h : ∀ w ∈ l, WOk w) (hnw : WOk nw) : ∀ w ∈ l.set i nw, WOk w := by
  intro w hw
  rcases List.mem_or_eq_of_mem_set hw with h1 | h1
  · exact h w h1
  · subst h1; exact hnw

theorem wok_cur_none (w : Worker) : WOk { w with cur := none } := by
  constructor
  · constructor <;> simp [Worker.runningTasks]
  · simp [Worker.runningTasks]

theorem wok_cur_some (w : Worker) (t : Task) (hcpu : t.cpu ≤ w.wcpu)
    (hgpu : t.gpu ≤ w.wgpu) : WOk { w with cur := some t } := by
  constructor
  · constructor <;> simp [Worker.runningTasks]
    · exact hcpu
    · exact hgpu
  · simp [Worker.runningTasks]

theorem submit_ok_workers {sys : Sys} {fn : Nat} {args : List Nat}
    {cpu gpu : Nat} {p : Nat × Sys} (h : sys.submit fn args cpu gpu = .ok p) :
    p.2.workers = sys.workers := by
  unfold Sys.submit at h
  split at h
  · simp only [Except.ok.injEq] at h
    rw [← h]
  · exact absurd h (by simp)

theorem create_actor_ok_workers {sys : Sys} {fn : Nat} {args : List Nat}
    {cpu gpu : Nat} {p : Nat × Sys}
    (h : sys.create_actor fn args cpu gpu = .ok p) :
    p.2.workers = sys.workers := by
  unfold Sys.create_actor at h
  split at h
  · simp only [Except.ok.injEq] at h
    rw [← h]
  · exact absurd h (by simp)

theorem call_actor_method_ok_workers {sys : Sys} {sid fn : Nat}
    {args : List Nat} {cpu gpu : Nat} {p : Nat × Sys}
    (h : sys.call_actor_method sid fn args cpu gpu = .ok p) :
    p.2.workers = sys.workers := by
  unfold Sys.call_actor_method at h
  split at h
  · split at h
    · simp only [Except.ok.injEq] at h
      rw [← h]
    · exact absurd h (by simp)
  · exact absurd h (by simp)

theorem sysStep_WInv (m : Model) (sys : Sys) (a : SysAct) (h : WInv sys) :
    WInv (sysStep m sys a) := by
  cases a with
  | submitA fn args cpu gpu =>
      show WInv (match sys.submit fn args cpu gpu with
        | .ok p => p.2 | .error _ => sys)
      split
      · intro w hw
        rw [submit_ok_workers (by assumption)] at hw
        exact h w hw
      · exact h
  | createA fn args cpu gpu =>
      show WInv (match sys.create_actor fn args cpu gpu with
        | .ok p => p.2 | .error _ => sys)
      split
      · intro w hw
        rw [create_actor_ok_workers (by assumption)] at hw
        exact h w hw
      · exact h
  | callA sid fn args cpu gpu =>
      show WInv (match sys.call_actor_method sid fn args cpu gpu with
        | .ok p => p.2 | .error _ => sys)
      split
      · intro w hw
        rw [call_actor_method_ok_workers (by assumption)] at hw
        exact h w hw
      · exact h
  | bindA sid wIdx =>
      show WInv (sys.doBind sid wIdx)
      unfold Sys.doBind
      split
      · split
        · rename_i sl w hsl hw hcond
          intro w' hw'
          refine wok_of_forall_set h ?_ w' hw'
          have hmem : w ∈ sys.workers := List.getElem?_mem hw
          have hwok := h w hmem
          obtain ⟨⟨hc, hg⟩, hl⟩ := hwok
          exact ⟨⟨hc, hg⟩, hl⟩
        · exact h
      · exact h
  | dispatchFreeA tIdx wIdx =>
      show WInv (sys.doDispatchFree tIdx wIdx)
      unfold Sys.doDispatchFree
      split
      · split
        · rename_i t w ht hw hcond
          exact wok_of_forall_set h
            (wok_cur_some w t hcond.2.2.1 hcond.2.2.2)
        · exact h
      · exact h
  | dispatchActorA sid =>
      show WInv (sys.doDispatchActor sid)
      unfold Sys.doDispatchActor
      split
      · split
        · split
          · split
            · rename_i hcond
              exact wok_of_forall_set h
                (wok_cur_some _ _ hcond.2.1 hcond.2.2)
            · exact h
          · exact h
        · exact h
      · exact h
  | completeA wIdx =>
      show WInv (Sys.doComplete m sys wIdx)
      unfold Sys.doComplete
      split
      · split
        · split
          · exact wok_of_forall_set h (wok_cur_none _)
          · split
            · split
              · exact wok_of_forall_set h (wok_cur_none _)
              · exact wok_of_forall_set h (wok_cur_none _)
            · exact wok_of_forall_set h (wok_cur_none _)
        · exact h
      · exact h

/-- Claim C9: in every state reachable from cluster start-up by any
interleaving of driver calls and scheduler events, every worker runs at
most one task at a time — free or actor-method alike — and the summed
cpu/gpu reservations of the tasks running on a worker never exceed that
worker's capacity. -/
theorem worker_capacity_invariant (m : Model) (caps : List (Nat × Nat))
    (acts : List SysAct) :
    ∀ w ∈ (runSys m caps acts).workers, WOk w := by
  have hinit : WInv (initSys caps) := by
    intro w hw
    simp only [initSys, List.mem_map] at hw
    obtain ⟨c, _, rfl⟩ := hw
    exact wok_cur_none ⟨c.1, c.2, false, none⟩
  unfold runSys
  generalize initSys caps = s0 at hinit
  induction acts generalizing s0 with
  | nil => exact hinit
  | cons a rest ih => exact ih _ (sysStep_WInv m s0 a hinit)

/-- Witness for C9: after submitting and dispatching a 1-CPU task on a
one-worker cluster, the busy worker satisfies the capacity discipline. -/
theorem worker_capacity_invariant_witness :
    WOk ⟨4, 1, false, some ⟨0, 7, [], 1, 0, none⟩⟩ :=
  worker_capacity_invariant ⟨fun _ _ => .ok 0, fun _ st _ => .ok (st, st)⟩
    [(4, 1)] [.submitA 7 [] 1 0, .dispatchFreeA 0 0]
    ⟨4, 1, false, some ⟨0, 7, [], 1, 0, none⟩⟩ (by decide)

theorem publish_error_eq {s : Store α} {i : Nat} {e : Nat}
    (hlt : i < s.entries.length) (hemp : s.lookup i = .empty) :
    s.publish i (.error e) = ⟨s.entries.set i (.failed e), s.log ++ [i]⟩ := by
  show (match s.putFailed i e with | .ok s' => s' | .error _ => s) = _
  rw [putFailed_ok_iff.mpr ⟨hlt, hemp, rfl⟩]

theorem publish_ok_eq {s : Store α} {i : Nat} {v : α}
    (hlt : i < s.entries.length) (hemp : s.lookup i = .empty) :
    s.publish i (.ok v) = ⟨s.entries.set i (.ready v), s.log ++ [i]⟩ := by
  show (match s.put i v with | .ok s' => s' | .error _ => s) = _
  rw [put_ok_iff.mpr ⟨hlt, hemp, rfl⟩]

/-- Claim C7: when the opaque body of a task — a free task or an
actor-method task alike — raises an error, the completion step records
the failure in that task's future: the entry becomes failed, `get` on
that id re-raises the error to every caller, `wait` counts the id as done
and returns it in `ready`, the worker is freed — and nothing else
changes: all other workers, the ready set of pending tasks and every
actor slot (including the failing method's own slot and its state) are
untouched, and the scheduler keeps running. -/
theorem task_failure_isolated (m : Model) (sys : Sys) (wIdx : Nat)
    (w : Worker) (t : Task) (e : Nat)
    (hw : sys.workers[wIdx]? = some w)
    (hcur : w.cur = some t)
    (hfail : (t.slot = none ∧ m.runFree t.fn t.args = .error e) ∨
      (∃ (sid : Nat) (sl : Slot), t.slot = some sid ∧
        sys.slots[sid]? = some sl ∧
        m.runMethod t.fn sl.astate t.args = .error e))
    (hlt : t.tid < sys.store.entries.length)
    (hemp : sys.store.lookup t.tid = .empty)
    (hlog : t.tid ∉ sys.store.log) :
    (sysStep m sys (.completeA wIdx)).store.lookup t.tid = .failed e ∧
      (sysStep m sys (.completeA wIdx)).store.get t.tid =
        some (.error e, (sysStep m sys (.completeA wIdx)).store) ∧
      (sysStep m sys (.completeA wIdx)).store.is_done t.tid = true ∧
      (sysStep m sys (.completeA wIdx)).store.wait [t.tid] 1 =
        .ok (some ([t.tid], [])) ∧
      (sysStep m sys (.completeA wIdx)).workers =
        sys.workers.set wIdx { w with cur := none } ∧
      (sysStep m sys (.completeA wIdx)).pending = sys.pending ∧
      (sysStep m sys (.completeA wIdx)).slots = sys.slots := by
  have hstep : sysStep m sys (.completeA wIdx) =
      { sys with workers := sys.workers.set wIdx { w with cur := none },
                 store := ⟨sys.store.entries.set t.tid (.failed e),
                           sys.store.log ++ [t.tid]⟩ } := by
    show Sys.doComplete m sys wIdx = _
    unfold Sys.doComplete
    rw [hw]
    rcases hfail with ⟨hfree, hrun⟩ | ⟨sid, sl, hslot, hsl, hrun⟩
    · simp only [hcur, hfree, hrun, publish_error_eq hlt hemp]
    · simp only [hcur, hslot, hsl, hrun, publish_error_eq hlt hemp]
  rw [hstep]
  have hl : Store.lookup ⟨sys.store.entries.set t.tid (.failed e),
      sys.store.log ++ [t.tid]⟩ t.tid = .failed e :=
    lookup_set_self hlt _ _
  have hflt : (sys.store.log ++ [t.tid]).filter
      (fun i => ([t.tid] : List Nat).contains i) = [t.tid] := by
    rw [List.filter_append]
    have h1 : sys.store.log.filter
        (fun i => ([t.tid] : List Nat).contains i) = [] := by
      refine List.filter_eq_nil_iff.mpr ?_
      intro a ha hc
      have heq : a = t.tid := by simpa using List.elem_iff.mp hc
      exact hlog (heq ▸ ha)
    rw [h1]
    simp
  refine ⟨hl, ?_, ?_, ?_, rfl, rfl, rfl⟩
  · unfold Store.get
    rw [hl]
  · unfold Store.is_done
    rw [hl]
  · unfold Store.wait
    rw [if_pos (by simp)]
    simp only [hflt]
    rw [if_pos (by simp)]
    simp

/-- Witness for C7: a one-worker system running an actor-method task of
slot 0 whose body raises error 3 — the future fails, the worker is freed,
and the slot (with its state) is untouched. -/
theorem task_failure_isolated_witness :
    (sysStep ⟨fun _ _ => .ok 0, fun _ _ _ => .error 3⟩
        ⟨⟨[.empty], []⟩, [⟨1, 0, true, some ⟨0, 5, [], 1, 0, some 0⟩⟩], [],
          [⟨some 0, [], 0⟩]⟩
        (.completeA 0)).store.lookup 0 = .failed 3 ∧
      (sysStep ⟨fun _ _ => .ok 0, fun _ _ _ => .error 3⟩
        ⟨⟨[.empty], []⟩, [⟨1, 0, true, some ⟨0, 5, [], 1, 0, some 0⟩⟩], [],
          [⟨some 0, [], 0⟩]⟩
        (.completeA 0)).store.get 0 =
        some (.error 3,
          (sysStep ⟨fun _ _ => .ok 0, fun _ _ _ => .error 3⟩
            ⟨⟨[.empty], []⟩, [⟨1, 0, true, some ⟨0, 5, [], 1, 0, some 0⟩⟩], [],
              [⟨some 0, [], 0⟩]⟩
            (.completeA 0)).store) ∧
      (sysStep ⟨fun _ _ => .ok 0, fun _ _ _ => .error 3⟩
        ⟨⟨[.empty], []⟩, [⟨1, 0, true, some ⟨0, 5, [], 1, 0, some 0⟩⟩], [],
          [⟨some 0, [], 0⟩]⟩
        (.completeA 0)).store.is_done 0 = true ∧
      (sysStep ⟨fun _ _ => .ok 0, fun _ _ _ => .error 3⟩
        ⟨⟨[.empty], []⟩, [⟨1, 0, true, some ⟨0, 5, [], 1, 0, some 0⟩⟩], [],
          [⟨some 0, [], 0⟩]⟩
        (.completeA 0)).store.wait [0] 1 = .ok (some ([0], [])) ∧
      (sysStep ⟨fun _ _ => .ok 0, fun _ _ _ => .error 3⟩
        ⟨⟨[.empty], []⟩, [⟨1, 0, true, some ⟨0, 5, [], 1, 0, some 0⟩⟩], [],
          [⟨some 0, [], 0⟩]⟩
        (.completeA 0)).workers =
        ([⟨1, 0, true, some ⟨0, 5, [], 1, 0, some 0⟩⟩] : List Worker).set 0
          ⟨1, 0, true, none⟩ ∧
      (sysStep ⟨fun _ _ => .ok 0, fun _ _ _ => .error 3⟩
        ⟨⟨[.empty], []⟩, [⟨1, 0, true, some ⟨0, 5, [], 1, 0, some 0⟩⟩], [],
          [⟨some 0, [], 0⟩]⟩
        (.completeA 0)).pending = [] ∧
      (sysStep ⟨fun _ _ => .ok 0, fun _ _ _ => .error 3⟩
        ⟨⟨[.empty], []⟩, [⟨1, 0, true, some ⟨0, 5, [], 1, 0, some 0⟩⟩], [],
          [⟨some 0, [], 0⟩]⟩
        (.completeA 0)).slots = [⟨some 0, [], 0⟩] :=
  task_failure_isolated ⟨fun _ _ => .ok 0, fun _ _ _ => .error 3⟩
    ⟨⟨[.empty], []⟩, [⟨1, 0, true, some ⟨0, 5, [], 1, 0, some 0⟩⟩], [],
      [⟨some 0, [], 0⟩]⟩
    0 ⟨1, 0, true, some ⟨0, 5, [], 1, 0, some 0⟩⟩ ⟨0, 5, [], 1, 0, some 0⟩ 3
    rfl rfl (Or.inr ⟨0, ⟨some 0, [], 0⟩, rfl, rfl, rfl⟩)
    (by decide) (by decide) (by decide)

/-- Modelled from the spec: minting `n` fresh ids `0 … n-1` at
submission time — `n` successive allocations from the empty store. -/
def Store.allocN (α : Type) : Nat → Store α
  | 0 => ⟨[], []⟩
  | n + 1 => ((Store.allocN α n).allocate).2

/-- Modelled from the spec: the producing tasks complete in an arbitrary
order, each publishing its value under its own id. -/
def Store.putSeq (val : Nat → α) (order : List Nat) (s : Store α) : Store α :=
  order.foldl (fun st i => st.publish i (.ok (val i))) s

/-- Modelled from the spec: `get` applied to a whole list of ids, as the
notebooks do with `ray.get(results)` — blocked (`none`) until every id is
done, else the values positionally. -/
def Store.getList (s : Store α) (ids : List Nat) :
    Option (List (Except Nat α)) :=
  ids.mapM (fun i => (s.get i).map Prod.fst)

theorem allocN_entries (α : Type) (n : Nat) :
    (Store.allocN α n).entries = List.replicate n .empty ∧
      (Store.allocN α n).log = [] := by
  induction n with
  | zero => exact ⟨rfl, rfl⟩
  | succ k ih =>
      unfold Store.allocN
      constructor
      · show (Store.allocN α k).entries ++ [.empty] = _
        rw [ih.1, List.replicate_succ']
      · show (Store.allocN α k).log = []
        exact ih.2

theorem publish_entries_length {s : Store α} {i : Nat} {r : Except Nat α} :
    ((s.publish i r).entries).length = s.entries.length := by
  cases r with
  | ok v =>
      show ((match s.put i v with
        | .ok s' => s' | .error _ => s).entries).length = _
      cases hp : s.put i v with
      | ok s' =>
          obtain ⟨_, _, rfl⟩ := put_ok_iff.mp hp
          simp
      | error _ => rfl
  | error e =>
      show ((match s.putFailed i e with
        | .ok s' => s' | .error _ => s).entries).length = _
      cases hp : s.putFailed i e with
      | ok s' =>
          obtain ⟨_, _, rfl⟩ := putFailed_ok_iff.mp hp
          simp
      | error _ => rfl

theorem publish_lookup_ne {s : Store α} {i j : Nat} {r : Except Nat α}
    (h : i ≠ j) : (s.publish i r).lookup j = s.lookup j := by
  cases r with
  | ok v =>
      show (match s.put i v with
        | .ok s' => s' | .error _ => s).lookup j = _
      cases hp : s.put i v with
      | ok s' =>
          obtain ⟨_, _, rfl⟩ := put_ok_iff.mp hp
          exact lookup_set_ne h _ _
      | error _ => rfl
  | error e =>
      show (match s.putFailed i e with
        | .ok s' => s' | .error _ => s).lookup j = _
      cases hp : s.putFailed i e with
      | ok s' =>
          obtain ⟨_, _, rfl⟩ := putFailed_ok_iff.mp hp
          exact lookup_set_ne h _ _
      | error _ => rfl

theorem putSeq_lookup_not_mem {val : Nat → α} {order : List Nat}
    {j : Nat} (h : j ∉ order) :
    ∀ s : Store α, (s.putSeq val order).lookup j = s.lookup j := by
  induction order with
  | nil => intro s; rfl
  | cons i rest ih =>
      intro s
      have hij : i ≠ j := fun he => h (by rw [he]; exact List.mem_cons_self _ _)
      have hr : j ∉ rest := fun hm => h (List.mem_cons_of_mem _ hm)
      show ((s.publish i (.ok (val i))).putSeq val rest).lookup j = _
      rw [ih hr, publish_lookup_ne hij]

theorem putSeq_lookup_mem {val : Nat → α} {order : List Nat}
    (hnd : order.Nodup) :
    ∀ s : Store α, (∀ i ∈ order, i < s.entries.length ∧ s.lookup i = .empty) →
      ∀ j ∈ order, (s.putSeq val order).lookup j = .ready (val j) := by
  induction order with
  | nil => intro s _ j hj; exact absurd hj (List.not_mem_nil j)
  | cons i rest ih =>
      intro s hpre j hj
      obtain ⟨hi_rest, hnd_rest⟩ := List.nodup_cons.mp hnd
      have hlt : i < s.entries.length := (hpre i (List.mem_cons_self _ _)).1
      have hemp : s.lookup i = .empty := (hpre i (List.mem_cons_self _ _)).2
      have hpub : s.publish i (.ok (val i)) =
          ⟨s.entries.set i (.ready (val i)), s.log ++ [i]⟩ :=
        publish_ok_eq hlt hemp
      rcases List.mem_cons.mp hj with rfl | hj_rest
      · show ((s.publish j (.ok (val j))).putSeq val rest).lookup j = _
        rw [putSeq_lookup_not_mem hi_rest, hpub, lookup_set_self hlt]
      · show ((s.publish i (.ok (val i))).putSeq val rest).lookup j = _
        refine ih hnd_rest _ ?_ j hj_rest
        intro i' hi'
        have hne : i ≠ i' := fun he => hi_rest (he ▸ hi')
        refine ⟨?_, ?_⟩
        · rw [publish_entries_length]
          exact (hpre i' (List.mem_cons_of_mem _ hi')).1
        · rw [publish_lookup_ne hne]
          exact (hpre i' (List.mem_cons_of_mem _ hi')).2

theorem getList_all_ready {s : Store α} {val : Nat → α} :
    ∀ ids : List Nat, (∀ i ∈ ids, s.lookup i = .ready (val i)) →
      s.getList ids = some (ids.map fun i => Except.ok (val i)) := by
  intro ids
  induction ids with
  | nil => intro _; rfl
  | cons i rest ih =>
      intro h
      have hget : s.get i = some (.ok (val i), s) := by
        unfold Store.get
        rw [h i (List.mem_cons_self _ _)]
      unfold Store.getList
      rw [List.mapM_cons]
      unfold Store.getList at ih
      rw [ih (fun j hj => h j (List.mem_cons_of_mem _ hj)), hget]
      rfl

/-- Claim C10: publish the values of `n` submitted tasks in any
completion order whatsoever (any permutation of the minted ids
`0 … n-1`); then `get` over the whole id list returns a list of the same
length whose `i`-th element is the value produced by the task that minted
the `i`-th id — positional correspondence with submission order survives
out-of-order completion. -/
theorem getList_positional (n : Nat) (val : Nat → Nat) (order : List Nat)
    (hperm : order.Perm (List.range n)) :
    ((Store.allocN Nat n).putSeq val order).getList (List.range n) =
        some ((List.range n).map fun i => Except.ok (val i)) ∧
      ∀ out : List (Except Nat Nat),
        ((Store.allocN Nat n).putSeq val order).getList (List.range n) =
            some out → out.length = n := by
  obtain ⟨hent, _⟩ := allocN_entries Nat n
  have hnd : order.Nodup := (List.Perm.nodup_iff hperm).mpr (List.nodup_range n)
  have hmem : ∀ j, j ∈ order ↔ j < n := by
    intro j
    rw [List.Perm.mem_iff hperm, List.mem_range]
  have hready : ∀ j ∈ order,
      ((Store.allocN Nat n).putSeq val order).lookup j = .ready (val j) := by
    refine putSeq_lookup_mem hnd _ ?_
    intro i hi
    have hilt : i < n := (hmem i).mp hi
    refine ⟨by rw [hent, List.length_replicate]; exact hilt, ?_⟩
    unfold Store.lookup
    rw [hent, List.getElem?_replicate_of_lt hilt]
    rfl
  have hmain : ((Store.allocN Nat n).putSeq val order).getList (List.range n) =
      some ((List.range n).map fun i => Except.ok (val i)) := by
    refine getList_all_ready _ ?_
    intro i hi
    exact hready i ((hmem i).mpr (List.mem_range.mp hi))
  refine ⟨hmain, ?_⟩
  intro out hout
  rw [hmain] at hout
  injection hout with hout
  rw [← hout, List.length_map, List.length_range]

/-- Witness for C10: three tasks completing in order 2, 0, 1 still read
back positionally as their own values. -/
theorem getList_positional_witness :
    ((Store.allocN Nat 3).putSeq (fun i => 10 * i + 3) [2, 0, 1]).getList
        (List.range 3) =
        some ((List.range 3).map fun i => Except.ok (10 * i + 3)) ∧
      ∀ out : List (Except Nat Nat),
        ((Store.allocN Nat 3).putSeq (fun i => 10 * i + 3) [2, 0, 1]).getList
            (List.range 3) = some out → out.length = 3 :=
  getList_positional 3 (fun i => 10 * i + 3) [2, 0, 1] (by decide)

end DistRay
